import Mathlib

/-!
Shallow embedding of the password-strength project (`src/password_utils.py`
and `src/main.py`): a four-predicate strength evaluator, a stricter
regex-based validator, and a small JSON-file-backed store for a password
history (capped at 5) and a site/username link table.

Modelling conventions:
* Python strings are Lean `String`s; most character-level work is done on
  `String.data : List Char`.
* The regex character classes `[A-Z]`, `[a-z]`, `\d`, `[A-Za-z]`,
  `[!@#$%^&*]`, `[@$!%*?&]` are modelled over their ASCII ranges.
* Python's `re` anchors: `re.match` anchors at the start, and `$` matches
  at the end of the string or just before a final trailing newline, which
  is modelled explicitly in `password_validator`.
* The JSON files are modelled abstractly by `FileContent`: either text
  that parses as the JSON array encoding a list of records (`good`), or
  text that fails to parse (`corrupt`); a missing file is `none`.
  Byte-level JSON encoding is not modelled.
-/

namespace PasswordProject

/-- ASCII character class `[A-Z]`. -/
def isUpperChar (c : Char) : Bool := 'A' ≤ c && c ≤ 'Z'

/-- ASCII character class `[a-z]`. -/
def isLowerChar (c : Char) : Bool := 'a' ≤ c && c ≤ 'z'

/-- Character class `\d`, modelled as the ASCII digits `[0-9]`. -/
def isDigitChar (c : Char) : Bool := '0' ≤ c && c ≤ '9'

/-- Character class `[A-Za-z]`. -/
def isLetterChar (c : Char) : Bool := isUpperChar c || isLowerChar c

/-- The evaluator's special-character set `[!@#$%^&*]`
(`password_utils.py` line 59). -/
def evalSpecialChars : List Char := ['!', '@', '#', '$', '%', '^', '&', '*']

/-- The validator regex's special-character set `[@$!%*?&]`
(`password_utils.py` line 14). -/
def validatorSpecialChars : List Char := ['@', '$', '!', '%', '*', '?', '&']

/-- `len(password) >= 8` (`password_utils.py` line 41). -/
def hasMinLength (password : String) : Bool := decide (8 ≤ password.length)

/-- `re.search(r"[A-Z]", password)` is truthy. -/
def hasUpper (password : String) : Bool := password.data.any isUpperChar

/-- `re.search(r"[a-z]", password)` is truthy. -/
def hasLower (password : String) : Bool := password.data.any isLowerChar

/-- `re.search(r"[A-Z]", password) and re.search(r"[a-z]", password)`
(`password_utils.py` line 47). -/
def hasCaseMix (password : String) : Bool := hasUpper password && hasLower password

/-- `re.search(r"\d", password)` is truthy (`password_utils.py` line 53). -/
def hasDigit (password : String) : Bool := password.data.any isDigitChar

/-- `re.search(r"[!@#$%^&*]", password)` is truthy (`password_utils.py` line 59). -/
def hasEvalSpecial (password : String) : Bool :=
  password.data.any (fun c => evalSpecialChars.contains c)

/-- Result shape of `password_evaluator`: the dict
`{"score": ..., "rank": ..., "feedback": ...}`. -/
structure EvalResult where
  score : Nat
  rank : String
  feedback : List String
deriving Repr, DecidableEq

/-- `password_strength_ranking` (`password_utils.py` line 65). -/
def password_strength_ranking : List String :=
  ["Weak", "Moderate", "Good", "Strong", "Excellent"]

/-- `password_evaluator` (`password_utils.py` lines 35–72): four checks
each either adding one point to the score or appending one fixed feedback
message, then a rank looked up at index `min(score, 4)`. -/
def password_evaluator (password : String) : EvalResult :=
  let score : Nat := 0
  let feedback : List String := []
  let scoreFeedback :=
    if hasMinLength password then (score + 1, feedback)
    else (score, feedback ++ ["❌ Password must be at least 8 characters long."])
  let scoreFeedback :=
    if hasCaseMix password then (scoreFeedback.1 + 1, scoreFeedback.2)
    else (scoreFeedback.1, scoreFeedback.2 ++ ["❌ Include both uppercase and lowercase letters."])
  let scoreFeedback :=
    if hasDigit password then (scoreFeedback.1 + 1, scoreFeedback.2)
    else (scoreFeedback.1, scoreFeedback.2 ++ ["❌ Add at least one number (0-9)."])
  let scoreFeedback :=
    if hasEvalSpecial password then (scoreFeedback.1 + 1, scoreFeedback.2)
    else (scoreFeedback.1, scoreFeedback.2 ++ ["❌ Include at least one special character (!@#$%^&*)."])
  { score := scoreFeedback.1
    rank := password_strength_ranking.getD (min scoreFeedback.1 4) ""
    feedback := scoreFeedback.2 }

/-- The body class `[A-Za-z\d@$!%*?&]` of `password_regex_pattern`. -/
def validatorClass (c : Char) : Bool :=
  isLetterChar c || isDigitChar c || validatorSpecialChars.contains c

/-- `password_validator` (`password_utils.py` lines 31–33), i.e.
`re.match` of `password_regex_pattern`
`^(?=.*[A-Za-z])(?=.*\d)(?=.*[@$!%*?&])[A-Za-z\d@$!%*?&]{8,}$`.

In Python (no `re.MULTILINE`), `$` matches at the end of the string or
just before a single newline at the very end, and `.` in the lookaheads
does not match a newline.  Since the body class contains no newline, the
regex matches exactly when the string with at most one trailing newline
removed consists of ≥ 8 class characters and contains a letter, a digit
and a special character; the match can never end before a non-final
newline, and a remaining interior newline makes the body fail. -/
def password_validator (password : String) : Bool :=
  let cs := password.data
  let t := if cs.getLast? = some '\n' then cs.dropLast else cs
  t.any isLetterChar && t.any isDigitChar &&
    t.any (fun c => validatorSpecialChars.contains c) &&
    t.all validatorClass && decide (8 ≤ t.length)

/-- Abstract model of the text stored in one of the JSON files:
`good records` is text that parses (via `json.load`) as the JSON array
encoding `records`; `corrupt` is text on which parsing raises
`JSONDecodeError`.  `json.dump` of a record list produces text of the
first kind. -/
inductive FileContent (α : Type) where
  | good (records : List α) : FileContent α
  | corrupt : FileContent α
deriving Repr, DecidableEq

/-- `data_loader` (`password_utils.py` lines 16–24): a missing file
(`none`) and a file whose content fails to parse both give `[]`;
otherwise the parsed record list is returned. -/
def data_loader {α : Type} (file : Option (FileContent α)) : List α :=
  match file with
  | none => []
  | some (FileContent.good records) => records
  | some FileContent.corrupt => []

/-- `data_saver` (`password_utils.py` lines 26–29): writes the JSON
array encoding of `data`, fully overwriting prior content. -/
def data_saver {α : Type} (data : List α) : FileContent α :=
  FileContent.good data

/-- A full history record as appended by `add_password`
(`password_utils.py` lines 97–102):
`{"password": ..., "score": ..., "rank": ..., "feedback": ...}`. -/
structure PasswordRecord where
  password : String
  score : Nat
  rank : String
  feedback : List String
deriving Repr, DecidableEq

/-- One entry of `storage/passwords.json`.  `add_password` writes the
full shape; the interactive page's save button (`main.py` line 89)
writes the brief shape `{"password": ..., "rank": result['score']}`,
whose `rank` field holds the integer score. -/
inductive HistEntry where
  | full (record : PasswordRecord) : HistEntry
  | brief (password : String) (rank : Nat) : HistEntry
deriving Repr, DecidableEq

/-- The `entry["password"]` field, present in both entry shapes. -/
def HistEntry.password : HistEntry → String
  | HistEntry.full r => r.password
  | HistEntry.brief p _ => p

/-- A record of `storage/links.json` as appended by `store_link`
(`password_utils.py` lines 120–126). -/
structure LinkRecord where
  site : String
  username : String
  password : String
  score : Nat
  rank : String
deriving Repr, DecidableEq

/-- The file system state seen by the program: the contents of
`storage/passwords.json` (`PASSWORDS_FILE`) and `storage/links.json`
(`LINKS_FILE`); `none` means the file does not exist. -/
structure FS where
  passwordsFile : Option (FileContent HistEntry)
  linksFile : Option (FileContent LinkRecord)
deriving Repr, DecidableEq

/-- The state before anything is stored: neither file exists. -/
def emptyFS : FS := { passwordsFile := none, linksFile := none }

/-- The password history as `data_loader` reads it from the state. -/
def historyOf (fs : FS) : List HistEntry := data_loader fs.passwordsFile

/-- The link table as `data_loader` reads it from the state. -/
def linksOf (fs : FS) : List LinkRecord := data_loader fs.linksFile

/-- `check_repeated_password` (`password_utils.py` lines 74–82): scans
the loaded history and reports not-unique on an exact match of the
`password` field. -/
def check_repeated_password (fs : FS) (password : String) : Bool × String :=
  let passwords := data_loader fs.passwordsFile
  if passwords.any (fun entry => entry.password == password) then
    (false, "❌ This password was recently used. Choose another.")
  else
    (true, "✅ Password is unique and not reused.")

/-- The full record `add_password` appends for `password`. -/
def mkHistoryRecord (password : String) : HistEntry :=
  let analysis := password_evaluator password
  HistEntry.full
    { password := password
      score := analysis.score
      rank := analysis.rank
      feedback := analysis.feedback }

/-- `add_password` (`password_utils.py` lines 84–109), returning the
result message together with the updated file-system state.  `pop(0)`
is `List.drop 1`. -/
def add_password (fs : FS) (password : String) : String × FS :=
  let passwords := data_loader fs.passwordsFile
  let checked := check_repeated_password fs password
  if !checked.1 then
    (checked.2, fs)
  else if !password_validator password then
    ("❌ Password does not meet security criteria.", fs)
  else
    let passwords := passwords ++ [mkHistoryRecord password]
    let passwords := if passwords.length > 5 then passwords.drop 1 else passwords
    ("✅ Success: Password added successfully.",
      { fs with passwordsFile := some (data_saver passwords) })

/-- The link record `store_link` appends. -/
def mkLinkRecord (site username password : String) : LinkRecord :=
  let analysis := password_evaluator password
  { site := site
    username := username
    password := password
    score := analysis.score
    rank := analysis.rank }

/-- `store_link` (`password_utils.py` lines 111–129), returning the
result message together with the updated file-system state. -/
def store_link (fs : FS) (site username password : String) : String × FS :=
  let links := data_loader fs.linksFile
  if links.any (fun entry => entry.site == site && entry.username == username) then
    ("❌ Error: A password is already stored for this site and username.", fs)
  else
    let links := links ++ [mkLinkRecord site username password]
    ("✅ Success: Password saved for the site.",
      { fs with linksFile := some (data_saver links) })

/-- `get_linked_passwords` (`password_utils.py` lines 131–133). -/
def get_linked_passwords (fs : FS) : List LinkRecord :=
  data_loader fs.linksFile

/-- `load_passwords` (`main.py` lines 24–28): like `data_loader` for a
missing file, but with no `JSONDecodeError` handler — on corrupt content
`json.load` raises, modelled as `none`. -/
def load_passwords (file : Option (FileContent HistEntry)) : Option (List HistEntry) :=
  match file with
  | none => some []
  | some (FileContent.good records) => some records
  | some FileContent.corrupt => none

/-- The interactive page's save-button handler (`main.py` lines 88–93):
append the brief entry `{"password": password, "rank": result['score']}`
to the loaded history and save — no validator call and no eviction. -/
def save_password_button (fs : FS) (password : String) : Option FS :=
  match load_passwords fs.passwordsFile with
  | none => none
  | some history =>
    let result := password_evaluator password
    let history := history ++ [HistEntry.brief password result.score]
    some { fs with passwordsFile := some (data_saver history) }

/-! ## Helper lemmas -/

/-- The score is the sum of four indicator bits. -/
theorem password_evaluator_score_eq (p : String) :
    (password_evaluator p).score =
      (if hasMinLength p then 1 else 0) + (if hasCaseMix p then 1 else 0) +
        (if hasDigit p then 1 else 0) + (if hasEvalSpecial p then 1 else 0) := by
  cases h1 : hasMinLength p <;> cases h2 : hasCaseMix p <;>
    cases h3 : hasDigit p <;> cases h4 : hasEvalSpecial p <;>
    simp [password_evaluator, h1, h2, h3, h4]

/-- `data_loader` of a missing file. -/
@[simp] theorem data_loader_none {α : Type} :
    data_loader (none : Option (FileContent α)) = [] := rfl

/-- `data_loader` of a parseable file. -/
@[simp] theorem data_loader_good {α : Type} (l : List α) :
    data_loader (some (FileContent.good l)) = l := rfl

/-- `data_loader` of a corrupt file. -/
@[simp] theorem data_loader_corrupt {α : Type} :
    data_loader (some (FileContent.corrupt : FileContent α)) = [] := rfl

/-- `add_password` on a password equal to some stored `password` field:
the recently-used rejection, state untouched. -/
theorem add_password_of_mem {fs : FS} {p : String}
    (h : ∃ e ∈ historyOf fs, e.password = p) :
    add_password fs p = ("❌ This password was recently used. Choose another.", fs) := by
  have hany : (data_loader fs.passwordsFile).any (fun e => e.password == p) = true := by
    simp only [List.any_eq_true]
    obtain ⟨e, he, hep⟩ := h
    exact ⟨e, he, by simp [hep]⟩
  simp [add_password, check_repeated_password, hany]

/-- `add_password` on a fresh, validator-accepted password: success
message, the full record appended, the head dropped when the appended
list exceeds 5 entries, and the result persisted. -/
theorem add_password_fresh_valid {fs : FS} {p : String}
    (hfresh : ∀ e ∈ historyOf fs, e.password ≠ p)
    (hvalid : password_validator p = true) :
    add_password fs p =
      ("✅ Success: Password added successfully.",
        { fs with passwordsFile := some (FileContent.good
            (if (historyOf fs ++ [mkHistoryRecord p]).length > 5 then
              (historyOf fs ++ [mkHistoryRecord p]).drop 1
            else historyOf fs ++ [mkHistoryRecord p])) }) := by
  have hany : (data_loader fs.passwordsFile).any (fun e => e.password == p) = false := by
    rw [Bool.eq_false_iff]
    intro hc
    rw [List.any_eq_true] at hc
    obtain ⟨e, he, hep⟩ := hc
    exact hfresh e he (by simpa using hep)
  simp [add_password, check_repeated_password, hany, hvalid, data_saver, historyOf]

/-- The `password` field of the record `add_password` appends. -/
@[simp] theorem mkHistoryRecord_password (p : String) :
    (mkHistoryRecord p).password = p := rfl

/-- A state whose passwords file holds exactly the given history and
whose links file does not exist. -/
def mkFS (h : List HistEntry) : FS :=
  { passwordsFile := some (FileContent.good h), linksFile := none }

/-- `add_password` on a fresh password the validator rejects: the fixed
security-criteria message, state untouched. -/
theorem add_password_invalid {fs : FS} {p : String}
    (hfresh : ∀ e ∈ historyOf fs, e.password ≠ p)
    (hinv : password_validator p = false) :
    add_password fs p = ("❌ Password does not meet security criteria.", fs) := by
  have hany : (data_loader fs.passwordsFile).any (fun e => e.password == p) = false := by
    rw [Bool.eq_false_iff]
    intro hc
    rw [List.any_eq_true] at hc
    obtain ⟨e, he, hep⟩ := hc
    exact hfresh e he (by simpa using hep)
  simp [add_password, check_repeated_password, hany, hinv]

/-- The regex body class rejects the newline character. -/
theorem validatorClass_newline : validatorClass '\n' = false := by decide

/-- Characterization of `password_validator`: it accepts exactly the
strings that, after removal of at most one trailing newline, consist of
at least 8 characters of the body class and contain at least one letter,
one digit and one validator special character. -/
theorem validator_iff (p : String) :
    password_validator p = true ↔
      ∃ l : List Char,
        (p.data = l ∨ p.data = l ++ ['\n']) ∧
        8 ≤ l.length ∧ (∀ c ∈ l, validatorClass c = true) ∧
        (∃ c ∈ l, isLetterChar c = true) ∧ (∃ c ∈ l, isDigitChar c = true) ∧
        (∃ c ∈ l, c ∈ validatorSpecialChars) := by
  simp only [password_validator, Bool.and_eq_true, List.all_eq_true, List.any_eq_true,
    decide_eq_true_eq, List.elem_iff]
  by_cases hc : p.data.getLast? = some '\n'
  · rw [if_pos hc]
    constructor
    · rintro ⟨⟨⟨⟨hlet, hdig⟩, hsp⟩, hall⟩, hlen⟩
      refine ⟨p.data.dropLast, Or.inr ?_, hlen, hall, hlet, hdig, hsp⟩
      exact (List.dropLast_append_getLast? '\n' (Option.mem_def.mpr hc)).symm
    · rintro ⟨l, hl | hl, hlen, hall, hlet, hdig, hsp⟩
      · exfalso
        have hmem : '\n' ∈ l := by
          rw [← hl]
          exact List.mem_of_mem_getLast? (Option.mem_def.mpr hc)
        have h2 := hall '\n' hmem
        rw [validatorClass_newline] at h2
        exact Bool.noConfusion h2
      · have hdrop : p.data.dropLast = l := by rw [hl]; exact List.dropLast_concat
        rw [hdrop]
        exact ⟨⟨⟨⟨hlet, hdig⟩, hsp⟩, hall⟩, hlen⟩
  · rw [if_neg hc]
    constructor
    · rintro ⟨⟨⟨⟨hlet, hdig⟩, hsp⟩, hall⟩, hlen⟩
      exact ⟨p.data, Or.inl rfl, hlen, hall, hlet, hdig, hsp⟩
    · rintro ⟨l, hl | hl, hlen, hall, hlet, hdig, hsp⟩
      · rw [hl]
        exact ⟨⟨⟨⟨hlet, hdig⟩, hsp⟩, hall⟩, hlen⟩
      · exfalso
        apply hc
        rw [hl]
        exact List.getLast?_concat l

/-! ## Claim theorems -/

/-- C1: for every input string, `password_evaluator` returns a score equal
to the number of satisfied predicates among the four (length ≥ 8;
uppercase and lowercase mix; a decimal digit; a character from
`{!,@,#,$,%,^,&,*}`), a feedback list holding the fixed message of each
failed predicate in the fixed order (length, case-mix, digit,
special-char), and a rank equal to the table
`["Weak","Moderate","Good","Strong","Excellent"]` indexed at
`min(score, 4)`. -/
theorem evaluator_score_feedback_rank (p : String) :
    (password_evaluator p).score =
      [hasMinLength p, hasCaseMix p, hasDigit p, hasEvalSpecial p].count true ∧
    (password_evaluator p).feedback =
      ([(hasMinLength p, "❌ Password must be at least 8 characters long."),
        (hasCaseMix p, "❌ Include both uppercase and lowercase letters."),
        (hasDigit p, "❌ Add at least one number (0-9)."),
        (hasEvalSpecial p, "❌ Include at least one special character (!@#$%^&*).")].filterMap
          (fun pm => if pm.1 then none else some pm.2)) ∧
    (password_evaluator p).rank =
      ["Weak", "Moderate", "Good", "Strong", "Excellent"].getD
        (min (password_evaluator p).score 4) "" := by
  cases h1 : hasMinLength p <;> cases h2 : hasCaseMix p <;>
    cases h3 : hasDigit p <;> cases h4 : hasEvalSpecial p <;>
    simp [password_evaluator, password_strength_ranking, h1, h2, h3, h4, List.count]

/-- C9: for every input string, the score plus the number of feedback
messages is exactly 4: each predicate contributes either one score point
or exactly one message, never both and never neither. -/
theorem score_plus_feedback_length (p : String) :
    (password_evaluator p).score + (password_evaluator p).feedback.length = 4 := by
  cases h1 : hasMinLength p <;> cases h2 : hasCaseMix p <;>
    cases h3 : hasDigit p <;> cases h4 : hasEvalSpecial p <;>
    simp [password_evaluator, h1, h2, h3, h4]

/-- C2 (counterexample to the claim as stated): `password_validator`
accepts `"Abcd123@\n"`, a password that does not consist entirely of
letters, digits and the validator special set — because Python's `$`
also matches just before a single newline at the end of the string.  So
the validator does not reject every password containing whitespace. -/
theorem validator_claim_cex :
    password_validator "Abcd123@\n" = true ∧
      ¬ (∀ c ∈ "Abcd123@\n".data, validatorClass c = true) :=
  ⟨by decide, by decide⟩

/-- C2 (amended): `password_validator` returns true exactly for the
strings that, after removal of at most one trailing newline, have length
at least 8, consist entirely of letters, digits and `{@,$,!,%,*,?,&}`,
and contain at least one letter, one digit and one character of that
special set.  Apart from that single trailing newline, a character
outside the set — such as `'#'` — forces rejection, whatever else the
password contains. -/
theorem validator_exact_characterization :
    (∀ p : String, password_validator p = true ↔
      ∃ l : List Char,
        (p.data = l ∨ p.data = l ++ ['\n']) ∧
        8 ≤ l.length ∧ (∀ c ∈ l, validatorClass c = true) ∧
        (∃ c ∈ l, isLetterChar c = true) ∧ (∃ c ∈ l, isDigitChar c = true) ∧
        (∃ c ∈ l, c ∈ validatorSpecialChars)) ∧
    (∀ p : String, '#' ∈ p.data → password_validator p = false) := by
  refine ⟨validator_iff, fun p hmem => ?_⟩
  cases hv : password_validator p with
  | false => rfl
  | true =>
    exfalso
    obtain ⟨l, hl, _, hall, _⟩ := (validator_iff p).mp hv
    have hl' : '#' ∈ l := by
      rcases hl with hl | hl
      · rw [← hl]; exact hmem
      · rw [hl] at hmem
        rcases List.mem_append.mp hmem with h | h
        · exact h
        · simp at h
    have h2 := hall '#' hl'
    exact Bool.noConfusion h2

/-- Witness for C2: the rejection clause applied at a concrete input
containing `'#'`. -/
theorem validator_exact_characterization_witness :
    ('#' ∈ "Abcd123#".data) ∧ password_validator "Abcd123#" = false :=
  ⟨by decide, validator_exact_characterization.2 "Abcd123#" (by decide)⟩

/-- C10: every validator-accepted password scores at least 2 with the
evaluator (the length and digit predicates are guaranteed), but not
necessarily more: `"abcd123?"` is accepted by the validator yet scores
exactly 2 — it has no uppercase letter and its only special character
`'?'` is outside the evaluator's special set. -/
theorem validator_implies_score_at_least_two :
    (∀ p : String, password_validator p = true → 2 ≤ (password_evaluator p).score) ∧
      password_validator "abcd123?" = true ∧
      (password_evaluator "abcd123?").score = 2 := by
  refine ⟨fun p h => ?_, by decide, by decide⟩
  obtain ⟨l, hl, hlen, _, _, hdig, _⟩ := (validator_iff p).mp h
  have hsub : l.Sublist p.data := by
    rcases hl with hl | hl
    · rw [hl]
    · rw [hl]; exact List.sublist_append_left l ['\n']
  have hmin : hasMinLength p = true := by
    unfold hasMinLength
    simp only [decide_eq_true_eq]
    exact le_trans hlen hsub.length_le
  have hdigp : hasDigit p = true := by
    unfold hasDigit
    simp only [List.any_eq_true]
    obtain ⟨c, hc, hcd⟩ := hdig
    exact ⟨c, hsub.subset hc, hcd⟩
  rw [password_evaluator_score_eq p, hmin, hdigp]
  cases h2 : hasCaseMix p <;> cases h4 : hasEvalSpecial p <;> simp

/-- Witness for C10: the score bound applied at a concrete input. -/
theorem validator_implies_score_at_least_two_witness :
    password_validator "Abcd123@" = true ∧ 2 ≤ (password_evaluator "Abcd123@").score :=
  ⟨by decide, validator_implies_score_at_least_two.1 "Abcd123@" (by decide)⟩

/-- C3: on a password not in the history that the validator accepts,
`add_password` returns the fixed success message, persists the history
with a new record carrying the evaluator's score, rank and feedback
appended (dropping the oldest entry when the appended history exceeds 5),
and leaves the links file alone; consequently adding 6 distinct valid
passwords to the empty state leaves exactly the 5 records of the last 5
passwords, the first-added one evicted. -/
theorem add_password_success_behaviour :
    (∀ (fs : FS) (p : String), (∀ e ∈ historyOf fs, e.password ≠ p) →
      password_validator p = true →
      (add_password fs p).1 = "✅ Success: Password added successfully." ∧
      historyOf (add_password fs p).2 =
        (if 5 < (historyOf fs ++ [mkHistoryRecord p]).length then
          (historyOf fs ++ [mkHistoryRecord p]).drop 1
        else historyOf fs ++ [mkHistoryRecord p]) ∧
      ((add_password fs p).2).linksFile = fs.linksFile) ∧
    (∀ p1 p2 p3 p4 p5 p6 : String,
      [p1, p2, p3, p4, p5, p6].Pairwise (· ≠ ·) →
      (∀ p ∈ [p1, p2, p3, p4, p5, p6], password_validator p = true) →
      historyOf (add_password (add_password (add_password (add_password (add_password
          (add_password emptyFS p1).2 p2).2 p3).2 p4).2 p5).2 p6).2 =
        [mkHistoryRecord p2, mkHistoryRecord p3, mkHistoryRecord p4,
          mkHistoryRecord p5, mkHistoryRecord p6]) := by
  constructor
  · intro fs p hfresh hvalid
    rw [@add_password_fresh_valid fs p hfresh hvalid]
    refine ⟨rfl, ?_, rfl⟩
    simp [historyOf, data_loader]
  · intro p1 p2 p3 p4 p5 p6 hdist hval
    have hv1 : password_validator p1 = true := hval p1 (by simp)
    have hv2 : password_validator p2 = true := hval p2 (by simp)
    have hv3 : password_validator p3 = true := hval p3 (by simp)
    have hv4 : password_validator p4 = true := hval p4 (by simp)
    have hv5 : password_validator p5 = true := hval p5 (by simp)
    have hv6 : password_validator p6 = true := hval p6 (by simp)
    simp only [List.pairwise_cons, List.mem_cons, List.not_mem_nil, or_false,
      List.mem_singleton, forall_eq_or_imp, forall_eq] at hdist
    obtain ⟨⟨h12, h13, h14, h15, h16⟩, ⟨h23, h24, h25, h26⟩, ⟨h34, h35, h36⟩,
      ⟨h45, h46⟩, h56, -⟩ := hdist
    have e1 : (add_password emptyFS p1).2 = mkFS [mkHistoryRecord p1] := by
      rw [@add_password_fresh_valid emptyFS p1 (by simp [historyOf, emptyFS, data_loader]) hv1]
      simp [historyOf, emptyFS, data_loader, mkFS]
    rw [e1]
    have e2 : (add_password (mkFS [mkHistoryRecord p1]) p2).2 =
        mkFS [mkHistoryRecord p1, mkHistoryRecord p2] := by
      rw [@add_password_fresh_valid _ p2 ?_ hv2]
      · simp [historyOf, data_loader, mkFS]
      · intro e he
        simp only [mkFS, historyOf, data_loader, List.mem_singleton] at he
        subst he
        simpa using h12
    rw [e2]
    have e3 : (add_password (mkFS [mkHistoryRecord p1, mkHistoryRecord p2]) p3).2 =
        mkFS [mkHistoryRecord p1, mkHistoryRecord p2, mkHistoryRecord p3] := by
      rw [@add_password_fresh_valid _ p3 ?_ hv3]
      · simp [historyOf, data_loader, mkFS]
      · intro e he
        simp only [mkFS, historyOf, data_loader, List.mem_cons, List.not_mem_nil,
          or_false] at he
        rcases he with rfl | rfl
        · simpa using h13
        · simpa using h23
    rw [e3]
    have e4 : (add_password
        (mkFS [mkHistoryRecord p1, mkHistoryRecord p2, mkHistoryRecord p3]) p4).2 =
        mkFS [mkHistoryRecord p1, mkHistoryRecord p2, mkHistoryRecord p3,
          mkHistoryRecord p4] := by
      rw [@add_password_fresh_valid _ p4 ?_ hv4]
      · simp [historyOf, data_loader, mkFS]
      · intro e he
        simp only [mkFS, historyOf, data_loader, List.mem_cons, List.not_mem_nil,
          or_false] at he
        rcases he with rfl | rfl | rfl
        · simpa using h14
        · simpa using h24
        · simpa using h34
    rw [e4]
    have e5 : (add_password (mkFS [mkHistoryRecord p1, mkHistoryRecord p2,
        mkHistoryRecord p3, mkHistoryRecord p4]) p5).2 =
        mkFS [mkHistoryRecord p1, mkHistoryRecord p2, mkHistoryRecord p3,
          mkHistoryRecord p4, mkHistoryRecord p5] := by
      rw [@add_password_fresh_valid _ p5 ?_ hv5]
      · simp [historyOf, data_loader, mkFS]
      · intro e he
        simp only [mkFS, historyOf, data_loader, List.mem_cons, List.not_mem_nil,
          or_false] at he
        rcases he with rfl | rfl | rfl | rfl
        · simpa using h15
        · simpa using h25
        · simpa using h35
        · simpa using h45
    rw [e5]
    have e6 : (add_password (mkFS [mkHistoryRecord p1, mkHistoryRecord p2,
        mkHistoryRecord p3, mkHistoryRecord p4, mkHistoryRecord p5]) p6).2 =
        mkFS [mkHistoryRecord p2, mkHistoryRecord p3, mkHistoryRecord p4,
          mkHistoryRecord p5, mkHistoryRecord p6] := by
      rw [@add_password_fresh_valid _ p6 ?_ hv6]
      · simp [historyOf, data_loader, mkFS]
      · intro e he
        simp only [mkFS, historyOf, data_loader, List.mem_cons, List.not_mem_nil,
          or_false] at he
        rcases he with rfl | rfl | rfl | rfl | rfl
        · simpa using h16
        · simpa using h26
        · simpa using h36
        · simpa using h46
        · simpa using h56
    rw [e6]
    simp [historyOf, data_loader, mkFS]

/-- Witness for C3: six concrete distinct valid passwords added to the
empty state leave exactly the 5 most recent records. -/
theorem add_password_success_behaviour_witness :
    (∀ e ∈ historyOf emptyFS, e.password ≠ "Abcdef1@") ∧
    historyOf (add_password (add_password (add_password (add_password (add_password
        (add_password emptyFS "Abcdef1@").2 "Abcdef2@").2 "Abcdef3@").2 "Abcdef4@").2
        "Abcdef5@").2 "Abcdef6@").2 =
      [mkHistoryRecord "Abcdef2@", mkHistoryRecord "Abcdef3@", mkHistoryRecord "Abcdef4@",
        mkHistoryRecord "Abcdef5@", mkHistoryRecord "Abcdef6@"] :=
  ⟨by simp [historyOf, emptyFS, data_loader],
    add_password_success_behaviour.2 "Abcdef1@" "Abcdef2@" "Abcdef3@" "Abcdef4@"
      "Abcdef5@" "Abcdef6@" (by decide) (by decide)⟩

/-- A concrete state whose history holds exactly five records. -/
def fiveFS : FS :=
  mkFS [mkHistoryRecord "Abcdef1@", mkHistoryRecord "Abcdef2@", mkHistoryRecord "Abcdef3@",
    mkHistoryRecord "Abcdef4@", mkHistoryRecord "Abcdef5@"]

/-- C4 (counterexample to the claim as stated): the interactive page's
save button inserts into a 5-record history without evicting anything,
leaving 6 stored records — so not every insert operation keeps the
stored history at 5 records or fewer. -/
theorem interactive_save_exceeds_cap_cex :
    (historyOf fiveFS).length = 5 ∧
      (save_password_button fiveFS "Abcdef6@").map (fun fs => (historyOf fs).length) =
        some 6 :=
  ⟨rfl, rfl⟩

/-- C4 (amended): `add_password` keeps the stored history at 5 records
or fewer whenever it was within that bound before the call; the
interactive save path (`save_password_button`) appends its record with
no eviction at all, so it can leave the history over the cap. -/
theorem history_cap_behaviour :
    (∀ (fs : FS) (p : String), (historyOf fs).length ≤ 5 →
      (historyOf (add_password fs p).2).length ≤ 5) ∧
    (∀ (fs : FS) (p : String), fs.passwordsFile ≠ some FileContent.corrupt →
      ∃ h, save_password_button fs p = some h ∧
        historyOf h = historyOf fs ++ [HistEntry.brief p (password_evaluator p).score]) := by
  constructor
  · intro fs p hlen
    by_cases hmem : ∃ e ∈ historyOf fs, e.password = p
    · rw [add_password_of_mem hmem]
      exact hlen
    · push_neg at hmem
      cases hv : password_validator p
      · rw [@add_password_invalid fs p hmem hv]
        exact hlen
      · rw [@add_password_fresh_valid fs p hmem hv]
        simp only [historyOf, data_loader_good]
        simp only [historyOf] at hlen
        split
        · rename_i hgt
          rw [List.length_append, List.length_singleton] at hgt
          rw [List.length_drop, List.length_append, List.length_singleton]
          omega
        · rename_i hle
          rw [Nat.not_lt, List.length_append, List.length_singleton] at hle
          rw [List.length_append, List.length_singleton]
          omega
  · intro fs p hfile
    cases hpf : fs.passwordsFile with
    | none =>
      refine ⟨{ fs with passwordsFile := some (FileContent.good
        [HistEntry.brief p (password_evaluator p).score]) }, ?_, ?_⟩
      · simp [save_password_button, load_passwords, hpf, data_saver]
      · simp [historyOf, hpf, data_loader]
    | some fc =>
      cases fc with
      | corrupt => exact absurd hpf hfile
      | good rs =>
        refine ⟨{ fs with passwordsFile := some (FileContent.good
          (rs ++ [HistEntry.brief p (password_evaluator p).score])) }, ?_, ?_⟩
        · simp [save_password_button, load_passwords, hpf, data_saver]
        · simp [historyOf, hpf, data_loader]

/-- Witness for C4: both clauses applied at the concrete 5-record state. -/
theorem history_cap_behaviour_witness :
    ((historyOf fiveFS).length ≤ 5 ∧
      (historyOf (add_password fiveFS "Qwerty9$").2).length ≤ 5) ∧
    (fiveFS.passwordsFile ≠ some FileContent.corrupt ∧
      ∃ h, save_password_button fiveFS "Qwerty9$" = some h ∧
        historyOf h = historyOf fiveFS ++
          [HistEntry.brief "Qwerty9$" (password_evaluator "Qwerty9$").score]) :=
  ⟨⟨by decide, history_cap_behaviour.1 fiveFS "Qwerty9$" (by decide)⟩,
    ⟨by decide, history_cap_behaviour.2 fiveFS "Qwerty9$" (by decide)⟩⟩

/-- After any `add_password` call on a validator-accepted password, some
stored record carries that password: either it was already there (the
call rejects and changes nothing) or it was just appended, and the
eviction of the oldest record can never remove the fresh appendee. -/
theorem mem_history_add_password {fs : FS} {p : String}
    (hv : password_validator p = true) :
    ∃ e ∈ historyOf (add_password fs p).2, e.password = p := by
  by_cases hmem : ∃ e ∈ historyOf fs, e.password = p
  · rw [add_password_of_mem hmem]
    exact hmem
  · push_neg at hmem
    rw [@add_password_fresh_valid fs p hmem hv]
    refine ⟨mkHistoryRecord p, ?_, by simp⟩
    simp only [historyOf, data_loader_good]
    split
    · rename_i hgt
      have hone : 1 ≤ (data_loader fs.passwordsFile).length := by
        rw [List.length_append, List.length_singleton] at hgt
        omega
      rw [List.drop_append_of_le_length hone]
      simp
    · simp

/-- C5: a password equal (exactly, case-sensitively) to the `password`
field of some stored record makes `add_password` return the fixed
recently-used message with the state untouched; consequently, calling
`add_password` twice with the same validator-accepted password gives the
rejection on the second call and leaves the state of the first call
unchanged — the collection does not grow. -/
theorem add_password_dedup :
    (∀ (fs : FS) (p : String), (∃ e ∈ historyOf fs, e.password = p) →
      add_password fs p = ("❌ This password was recently used. Choose another.", fs)) ∧
    (∀ (fs : FS) (p : String), password_validator p = true →
      add_password (add_password fs p).2 p =
        ("❌ This password was recently used. Choose another.", (add_password fs p).2)) := by
  refine ⟨fun fs p h => add_password_of_mem h, fun fs p hv => ?_⟩
  exact add_password_of_mem (mem_history_add_password hv)

/-- Witness for C5: the dedup rejection at a concrete state and input. -/
theorem add_password_dedup_witness :
    ((∃ e ∈ historyOf fiveFS, e.password = "Abcdef3@") ∧
      add_password fiveFS "Abcdef3@" =
        ("❌ This password was recently used. Choose another.", fiveFS)) ∧
    (password_validator "Qwerty9$" = true ∧
      add_password (add_password emptyFS "Qwerty9$").2 "Qwerty9$" =
        ("❌ This password was recently used. Choose another.",
          (add_password emptyFS "Qwerty9$").2)) :=
  ⟨⟨by decide, add_password_dedup.1 fiveFS "Abcdef3@" (by decide)⟩,
    ⟨by decide, add_password_dedup.2 emptyFS "Qwerty9$" (by decide)⟩⟩

/-- The fields of the record `store_link` appends. -/
@[simp] theorem mkLinkRecord_fields (s u p : String) :
    (mkLinkRecord s u p).site = s ∧ (mkLinkRecord s u p).username = u ∧
      (mkLinkRecord s u p).password = p := ⟨rfl, rfl, rfl⟩

/-- `store_link` on an already-claimed (site, username) pair: the fixed
duplicate message, state untouched. -/
theorem store_link_of_mem {fs : FS} {s u p : String}
    (h : ∃ e ∈ linksOf fs, e.site = s ∧ e.username = u) :
    store_link fs s u p =
      ("❌ Error: A password is already stored for this site and username.", fs) := by
  have hany : (data_loader fs.linksFile).any
      (fun e => e.site == s && e.username == u) = true := by
    rw [List.any_eq_true]
    obtain ⟨e, he, hs, hu⟩ := h
    exact ⟨e, he, by simp [hs, hu]⟩
  simp [store_link, hany]

/-- `store_link` on a fresh (site, username) pair: success, the new link
record appended and persisted, no condition on the password. -/
theorem store_link_fresh {fs : FS} {s u p : String}
    (h : ∀ e ∈ linksOf fs, ¬(e.site = s ∧ e.username = u)) :
    store_link fs s u p =
      ("✅ Success: Password saved for the site.",
        { fs with linksFile := some (FileContent.good
            (linksOf fs ++ [mkLinkRecord s u p])) }) := by
  have hany : (data_loader fs.linksFile).any
      (fun e => e.site == s && e.username == u) = false := by
    rw [Bool.eq_false_iff]
    intro hc
    rw [List.any_eq_true] at hc
    obtain ⟨e, he, hep⟩ := hc
    rw [Bool.and_eq_true, beq_iff_eq, beq_iff_eq] at hep
    exact h e he hep
  simp [store_link, hany, data_saver, linksOf]

/-- C6: `store_link` on a (site, username) pair matching an existing
record (case-sensitive, on both fields) returns the fixed duplicate-pair
message and leaves the state — in particular the stored record —
untouched; on a fresh pair it appends the evaluated link record and
persists, with no condition on the password; consequently storing twice
under the same pair rejects the second call and keeps the first record. -/
theorem store_link_behaviour :
    (∀ (fs : FS) (s u p : String), (∃ e ∈ linksOf fs, e.site = s ∧ e.username = u) →
      store_link fs s u p =
        ("❌ Error: A password is already stored for this site and username.", fs)) ∧
    (∀ (fs : FS) (s u p : String), (∀ e ∈ linksOf fs, ¬(e.site = s ∧ e.username = u)) →
      store_link fs s u p =
        ("✅ Success: Password saved for the site.",
          { fs with linksFile := some (FileContent.good
              (linksOf fs ++ [mkLinkRecord s u p])) })) ∧
    (∀ (fs : FS) (s u p q : String), (∀ e ∈ linksOf fs, ¬(e.site = s ∧ e.username = u)) →
      store_link (store_link fs s u p).2 s u q =
        ("❌ Error: A password is already stored for this site and username.",
          (store_link fs s u p).2) ∧
      mkLinkRecord s u p ∈ linksOf (store_link fs s u p).2) := by
  refine ⟨fun fs s u p h => store_link_of_mem h, fun fs s u p h => store_link_fresh h,
    fun fs s u p q hfresh => ?_⟩
  have h1 := @store_link_fresh fs s u p hfresh
  have hmem : ∃ e ∈ linksOf (store_link fs s u p).2, e.site = s ∧ e.username = u := by
    rw [h1]
    refine ⟨mkLinkRecord s u p, ?_, rfl, rfl⟩
    simp [linksOf]
  exact ⟨store_link_of_mem hmem, by rw [h1]; simp [linksOf]⟩

/-- Witness for C6: duplicate-pair rejection after a first store at a
concrete state, site and username. -/
theorem store_link_behaviour_witness :
    (∀ e ∈ linksOf emptyFS, ¬(e.site = "https://example.com" ∧ e.username = "user123")) ∧
    store_link (store_link emptyFS "https://example.com" "user123" "Secure@123").2
        "https://example.com" "user123" "Other#1" =
      ("❌ Error: A password is already stored for this site and username.",
        (store_link emptyFS "https://example.com" "user123" "Secure@123").2) ∧
    mkLinkRecord "https://example.com" "user123" "Secure@123" ∈
      linksOf (store_link emptyFS "https://example.com" "user123" "Secure@123").2 :=
  ⟨by simp [linksOf, emptyFS],
    (store_link_behaviour.2.2 emptyFS "https://example.com" "user123" "Secure@123"
      "Other#1" (by simp [linksOf, emptyFS])).1,
    (store_link_behaviour.2.2 emptyFS "https://example.com" "user123" "Secure@123"
      "Other#1" (by simp [linksOf, emptyFS])).2⟩

/-- C7: `data_loader` returns the empty list whenever the file is
missing or its content fails to parse; corruption degrades silently to
an empty collection, with no error value in the return type. -/
theorem data_loader_empty_on_missing_or_corrupt :
    ∀ (α : Type) (file : Option (FileContent α)),
      file = none ∨ file = some FileContent.corrupt → data_loader file = [] := by
  rintro α file (rfl | rfl) <;> rfl

/-- Witness for C7: the corrupt-file case at the history record type. -/
theorem data_loader_empty_on_missing_or_corrupt_witness :
    (some (FileContent.corrupt : FileContent HistEntry) = none ∨
      some (FileContent.corrupt : FileContent HistEntry) = some FileContent.corrupt) ∧
    data_loader (some (FileContent.corrupt : FileContent HistEntry)) = [] :=
  ⟨Or.inr rfl,
    data_loader_empty_on_missing_or_corrupt HistEntry (some FileContent.corrupt)
      (Or.inr rfl)⟩

/-- C8: saving any collection and loading it back returns the same
collection. -/
theorem save_then_load_roundtrip :
    ∀ (α : Type) (X : List α), data_loader (some (data_saver X)) = X :=
  fun _ _ => rfl

end PasswordProject
